import Mathlib

/-!
Shallow embedding of the `shortly` URL-shortener backend.

Namespace `RL` embeds the Redis-backed fixed-window rate limiter of
`src/middleware/rateLimit.ts` (the `rateLimiter` middleware): the Redis
counter store is an association list from keys to counter entries carrying
an optional absolute expiry timestamp, Redis `GET` / `INCR` / `EXPIRE` are
explicit state transformers, and a run of the middleware records its
decision, the resulting store, the list of issued store commands, and
whether a store operation threw (the `catch` branch of the source).

Namespace `URLS` embeds the controllers of `src/controllers.ts`
(`shortenUrl`, `redirectUrl`): the Prisma-backed URL store is a list of
`ShortLink` records, and each handler returns its HTTP-level result, the
resulting store, and the list of issued database operations.
-/

namespace RL

/-- Rate-limiter configuration, from the environment in the source:
`RATE_LIMIT_WINDOW_MS` (default 60000) and `RATE_LIMIT_MAX_REQUESTS`
(default 10). -/
structure Config where
  windowMs : Nat
  maxRequests : Nat
  deriving Repr, DecidableEq

/-- The defaults used when the environment variables are unset. -/
def defaultConfig : Config := ⟨60000, 10⟩

/-- One Redis counter: its integer value and, when `EXPIRE` has been applied,
the absolute time (ms) at which Redis deletes the key. -/
structure Entry where
  value : Nat
  expiryAt : Option Nat
  deriving Repr, DecidableEq

/-- The Redis key space, as an association list from keys to entries. -/
abbrev Store := List (String × Entry)

/-- Redis `GET key`: the first binding of the key, if any. -/
def redisGet : Store → String → Option Entry
  | [], _ => none
  | (k, e) :: rest, key => if k = key then some e else redisGet rest key

/-- Overwrite (or append) the binding of a key. -/
def redisSet : Store → String → Entry → Store
  | [], key, e => [(key, e)]
  | (k, e0) :: rest, key, e =>
    if k = key then (key, e) :: rest else (k, e0) :: redisSet rest key e

/-- Redis `INCR key`: an absent key is created with value 1 (and no expiry);
a present key has its value incremented, its expiry untouched. -/
def redisIncr (st : Store) (key : String) : Store :=
  match redisGet st key with
  | none => redisSet st key ⟨1, none⟩
  | some e => redisSet st key ⟨e.value + 1, e.expiryAt⟩

/-- Redis `EXPIRE key ttlSec`, issued at absolute time `now` (ms): sets the
key's expiry to `now + ttlSec * 1000`; a missing key is left alone. -/
def redisExpire (st : Store) (key : String) (ttlSec now : Nat) : Store :=
  match redisGet st key with
  | none => st
  | some e => redisSet st key ⟨e.value, some (now + ttlSec * 1000)⟩

/-- Whether a binding is still live at time `now`: entries with no expiry
never die, the others live strictly before their expiry time. -/
def liveAt (now : Nat) (p : String × Entry) : Bool :=
  match p.2.expiryAt with
  | none => true
  | some t => decide (now < t)

/-- Redis key expiry, modelled as deletion: at time `now` every entry whose
expiry time has been reached is gone. -/
def redisPurge (st : Store) (now : Nat) : Store :=
  st.filter (liveAt now)

/-- A Redis command issued by the middleware. -/
inductive ROp where
  | get (key : String)
  | incr (key : String)
  | expire (key : String) (ttlSec : Nat)
  deriving Repr, DecidableEq

/-- Whether a Redis command writes to the store. -/
def ROp.isWrite : ROp → Bool
  | .get _ => false
  | .incr _ => true
  | .expire _ _ => true

/-- Where, if anywhere, the Redis client throws during one request:
`ok` means every call succeeds, `failGet` that the initial `GET` throws
(e.g. Redis unreachable), `failExec` that the `multi.exec()` transaction
throws, so neither the `INCR` nor the `EXPIRE` is applied. -/
inductive FailMode where
  | ok
  | failGet
  | failExec
  deriving Repr, DecidableEq

/-- The middleware's decision: call `next()` or answer 429. -/
inductive Decision where
  | admitted
  | rejected429
  deriving Repr, DecidableEq

/-- Outcome of one run of the middleware: the decision, the store afterwards,
the Redis commands issued (a throwing command is still listed as issued),
and whether an exception reached the `catch` block. -/
structure RunResult where
  decision : Decision
  store : Store
  ops : List ROp
  threw : Bool
  deriving Repr, DecidableEq

/-- The `rateLimiter` middleware of `src/middleware/rateLimit.ts`:
read the current count; if it exists and is at least `maxRequests`, answer
429; otherwise `INCR` the key inside a `MULTI`, adding
`EXPIRE key (WINDOW_MS / 1000)` exactly when the `GET` found nothing, and
admit.  Any thrown store error is caught and the request admitted
(fail-open). -/
def rateLimiter (cfg : Config) (fm : FailMode) (st : Store) (key : String)
    (now : Nat) : RunResult :=
  if fm = .failGet then ⟨.admitted, st, [.get key], true⟩
  else
    match redisGet st key with
    | some e =>
      if cfg.maxRequests ≤ e.value then ⟨.rejected429, st, [.get key], false⟩
      else if fm = .failExec then
        ⟨.admitted, st, [.get key, .incr key], true⟩
      else
        ⟨.admitted, redisIncr st key, [.get key, .incr key], false⟩
    | none =>
      if fm = .failExec then
        ⟨.admitted, st, [.get key, .incr key, .expire key (cfg.windowMs / 1000)], true⟩
      else
        ⟨.admitted, redisExpire (redisIncr st key) key (cfg.windowMs / 1000) now,
          [.get key, .incr key, .expire key (cfg.windowMs / 1000)], false⟩

/-- `n` back-to-back requests (same key, same instant, store initially empty,
store healthy): the final store and the sequence of decisions. -/
def runSeq (cfg : Config) (key : String) (now : Nat) : Nat → Store × List Decision
  | 0 => ([], [])
  | n + 1 =>
    let p := runSeq cfg key now n
    let r := rateLimiter cfg .ok p.1 key now
    (r.store, p.2 ++ [r.decision])

/-- The store reached after `k` admitted sequential requests for one key
starting from the empty store: absent for `k = 0`, else the key bound to
count `k` with the expiry stamped by the first request. -/
def seqStore (cfg : Config) (key : String) (now : Nat) (k : Nat) : Store :=
  if k = 0 then [] else [(key, ⟨k, some (now + cfg.windowMs / 1000 * 1000)⟩)]

end RL

namespace URLS

/-- One row of the `shortenedURL` table.  Per the source's documentation of
the Prisma schema, `click_count` defaults to 0, `created_at` to the creation
time, `last_clicked_at` to null. -/
structure ShortLink where
  short_code : String
  long_url : String
  click_count : Nat
  created_at : Nat
  last_clicked_at : Option Nat
  deriving Repr, DecidableEq

/-- The URL store: every persisted `ShortLink`, in creation order. -/
abbrev Db := List ShortLink

/-- A database operation issued by a controller. -/
inductive DbOp where
  | query (code : String)
  | create (code : String) (url : String)
  | update (code : String)
  deriving Repr, DecidableEq

/-- Whether a database operation mutates the store. -/
def DbOp.isMutation : DbOp → Bool
  | .query _ => false
  | .create _ _ => true
  | .update _ => true

/-- Prisma `findUnique` on `short_code`: the record with that code, if any. -/
def findUnique : Db → String → Option ShortLink
  | [], _ => none
  | l :: rest, code => if l.short_code = code then some l else findUnique rest code

/-- Modelled from the spec: the 64-symbol URL-safe alphabet
(`A`–`Z`, `a`–`z`, `0`–`9`, `_`, `-`) that the external `nanoid` dependency
draws from; `nanoid` itself is not among this repository's sources. -/
def urlAlphabet : List Char :=
  "ABCDEFGHIJKLMNOPQRSTUVWXYZabcdefghijklmnopqrstuvwxyz0123456789_-".toList

/-- A character of the URL-safe class `[A-Za-z0-9_-]`. -/
def isUrlSafeChar (c : Char) : Bool :=
  c.isAlphanum || c = '_' || c = '-'

/-- Modelled from the spec: `nanoid(size)` returns `size` characters drawn
from the URL-safe alphabet; the randomness is made explicit as a function
from character position to a random byte, reduced modulo the alphabet
size 64. -/
def nanoid (size : Nat) (rng : Nat → Nat) : String :=
  String.mk ((List.range size).map (fun i => urlAlphabet.getD (rng i % 64) 'A'))

/-- JavaScript truthiness of an optional string field of the request body:
an absent field and the empty string are both falsy. -/
def truthy : Option String → Bool
  | none => false
  | some s => !s.isEmpty

/-- Modelled from the spec: Prisma `create` on the `shortenedURL` table.
The Prisma schema is not among the sources; per the spec the store's
`create` fails with a uniqueness-violation signal when `short_code` already
exists, and the schema defaults fill `click_count = 0`, `created_at = now`,
`last_clicked_at = null`. -/
def dbCreate (db : Db) (code url : String) (now : Nat) : Option (ShortLink × Db) :=
  match findUnique db code with
  | some _ => none
  | none =>
    let link : ShortLink := ⟨code, url, 0, now, none⟩
    some (link, db ++ [link])

/-- Prisma `update` with `click_count: \x7b increment: 1 \x7d` and
`last_clicked_at: new Date()`: the matching record gets its click count
incremented and its last-clicked time set to `now`. -/
def dbUpdateClick : Db → String → Nat → Db
  | [], _, _ => []
  | l :: rest, code, now =>
    if l.short_code = code then
      ⟨l.short_code, l.long_url, l.click_count + 1, l.created_at, some now⟩ :: rest
    else
      l :: dbUpdateClick rest code now

/-- HTTP-level result of the `shortenUrl` controller. -/
inductive ShortenResult where
  | created201 (short_url : String)
  | badRequest400
  | conflict409
  | serverError500
  deriving Repr, DecidableEq

/-- Outcome of one run of `shortenUrl`: the response, the store afterwards,
and the database operations issued. -/
structure ShortenOutcome where
  result : ShortenResult
  db : Db
  ops : List DbOp
  deriving Repr, DecidableEq

/-- The `shortenUrl` controller of `src/controllers.ts`: reject a falsy
`long_url` with 400; when `custom_code` is truthy, look it up and answer
409 if taken, else use it; when falsy, use `nanoid(6)` with no uniqueness
re-check; then `create` the record (a uniqueness violation is caught and
becomes 500) and answer 201 with `BASE_URL ++ "/" ++ short_code`. -/
def shortenUrl (baseUrl : String) (rng : Nat → Nat) (now : Nat) (db : Db)
    (long_url custom_code : Option String) : ShortenOutcome :=
  if !truthy long_url then ⟨.badRequest400, db, []⟩
  else
    let longU := long_url.getD ""
    if truthy custom_code then
      let code := custom_code.getD ""
      match findUnique db code with
      | some _ => ⟨.conflict409, db, [.query code]⟩
      | none =>
        match dbCreate db code longU now with
        | none => ⟨.serverError500, db, [.query code, .create code longU]⟩
        | some (link, db2) =>
          ⟨.created201 (baseUrl ++ "/" ++ link.short_code), db2,
            [.query code, .create code longU]⟩
    else
      let code := nanoid 6 rng
      match dbCreate db code longU now with
      | none => ⟨.serverError500, db, [.create code longU]⟩
      | some (link, db2) =>
        ⟨.created201 (baseUrl ++ "/" ++ link.short_code), db2, [.create code longU]⟩

/-- HTTP-level result of the `redirectUrl` controller. -/
inductive RedirectResult where
  | redirect302 (location : String)
  | notFound404
  | serverError500
  deriving Repr, DecidableEq

/-- Outcome of one run of `redirectUrl`: the response, the store afterwards,
and the database operations issued. -/
structure RedirectOutcome where
  result : RedirectResult
  db : Db
  ops : List DbOp
  deriving Repr, DecidableEq

/-- The `redirectUrl` controller of `src/controllers.ts`: look the code up,
404 when absent; when present, issue the fire-and-forget click-statistics
update (its failure, flagged by `updateFails`, is swallowed by the attached
`catch` and leaves the store unchanged) and answer with a 302 redirect to
the `long_url` of the record fetched before the update. -/
def redirectUrl (db : Db) (shortCode : String) (now : Nat)
    (updateFails : Bool) : RedirectOutcome :=
  match findUnique db shortCode with
  | none => ⟨.notFound404, db, [.query shortCode]⟩
  | some url =>
    let db2 := if updateFails then db else dbUpdateClick db shortCode now
    ⟨.redirect302 url.long_url, db2, [.query shortCode, .update shortCode]⟩

end URLS

namespace RL

/-- Reading back a key just written returns the written entry. -/
theorem redisGet_set_self (st : Store) (key : String) (e : Entry) :
    redisGet (redisSet st key e) key = some e := by
  induction st with
  | nil => simp [redisSet, redisGet]
  | cons p rest ih =>
    obtain ⟨k, e0⟩ := p
    by_cases h : k = key
    · simp [redisSet, h, redisGet]
    · simp [redisSet, h, redisGet, ih]

/-- A key bound nowhere in the store reads back as absent. -/
theorem redisGet_none_of_not_mem (key : String) :
    ∀ st : Store, key ∉ st.map Prod.fst → redisGet st key = none := by
  intro st
  induction st with
  | nil => intro _; rfl
  | cons q rest ih =>
    obtain ⟨k, e⟩ := q
    intro h
    rw [List.map_cons, List.mem_cons] at h
    push_neg at h
    obtain ⟨h1, h2⟩ := h
    rw [show redisGet ((k, e) :: rest) key
        = if k = key then some e else redisGet rest key from rfl,
      if_neg (fun hk => h1 hk.symm)]
    exact ih h2

/-- Filtering cannot invent a binding for an absent key. -/
theorem redisGet_filter_none (key : String) (p : String × Entry → Bool) :
    ∀ st : Store, redisGet st key = none → redisGet (st.filter p) key = none := by
  intro st
  induction st with
  | nil => intro _; rfl
  | cons q rest ih =>
    obtain ⟨k, e⟩ := q
    intro h
    rw [show redisGet ((k, e) :: rest) key
        = if k = key then some e else redisGet rest key from rfl] at h
    by_cases hk : k = key
    · rw [if_pos hk] at h
      exact Option.noConfusion h
    · rw [if_neg hk] at h
      by_cases hp : p (k, e)
      · rw [List.filter_cons_of_pos hp,
          show redisGet ((k, e) :: rest.filter p) key
            = if k = key then some e else redisGet (rest.filter p) key from rfl,
          if_neg hk]
        exact ih h
      · rw [List.filter_cons_of_neg (by simpa using hp)]
        exact ih h

/-- A key whose (unique) entry has reached its expiry time is gone after the
purge at `now`. -/
theorem redisPurge_get_none (key : String) (now v t : Nat) (ht : t ≤ now) :
    ∀ st : Store, (st.map Prod.fst).Nodup →
      redisGet st key = some ⟨v, some t⟩ →
      redisGet (redisPurge st now) key = none := by
  intro st
  induction st with
  | nil => intro _ hg; exact Option.noConfusion hg
  | cons q rest ih =>
    obtain ⟨k, e⟩ := q
    intro hnd hg
    rw [List.map_cons, List.nodup_cons] at hnd
    obtain ⟨hknm, hndr⟩ := hnd
    rw [show redisGet ((k, e) :: rest) key
        = if k = key then some e else redisGet rest key from rfl] at hg
    by_cases hk : k = key
    · rw [if_pos hk] at hg
      injection hg with he
      subst he
      subst hk
      have hdead : liveAt now (k, ⟨v, some t⟩) = false := by
        simp [liveAt, Nat.not_lt.mpr ht]
      rw [redisPurge, List.filter_cons_of_neg (by simp [hdead])]
      exact redisGet_filter_none k (liveAt now) rest (redisGet_none_of_not_mem k rest hknm)
    · rw [if_neg hk] at hg
      have hrest := ih hndr hg
      rw [redisPurge] at hrest ⊢
      by_cases hp : liveAt now (k, e)
      · rw [List.filter_cons_of_pos hp,
          show redisGet ((k, e) :: rest.filter (liveAt now)) key
            = if k = key then some e else redisGet (rest.filter (liveAt now)) key from rfl,
          if_neg hk]
        exact hrest
      · rw [List.filter_cons_of_neg (by simpa using hp)]
        exact hrest

/-- Unfolding: a throwing `GET` is caught and the request admitted. -/
theorem rateLimiter_failGet (cfg : Config) (st : Store) (key : String) (now : Nat) :
    rateLimiter cfg .failGet st key now = ⟨.admitted, st, [.get key], true⟩ := by
  simp [rateLimiter]

/-- Unfolding: healthy store, key absent. -/
theorem rateLimiter_ok_none (cfg : Config) (st : Store) (key : String) (now : Nat)
    (hg : redisGet st key = none) :
    rateLimiter cfg .ok st key now
      = ⟨.admitted, redisExpire (redisIncr st key) key (cfg.windowMs / 1000) now,
          [.get key, .incr key, .expire key (cfg.windowMs / 1000)], false⟩ := by
  simp [rateLimiter, hg]

/-- Unfolding: healthy store, current count below the cap. -/
theorem rateLimiter_ok_below (cfg : Config) (st : Store) (key : String) (now : Nat)
    (e : Entry) (hg : redisGet st key = some e) (hlt : e.value < cfg.maxRequests) :
    rateLimiter cfg .ok st key now
      = ⟨.admitted, redisIncr st key, [.get key, .incr key], false⟩ := by
  simp [rateLimiter, hg, Nat.not_le.mpr hlt]

/-- Unfolding: healthy store, current count at or over the cap. -/
theorem rateLimiter_ok_over (cfg : Config) (st : Store) (key : String) (now : Nat)
    (e : Entry) (hg : redisGet st key = some e) (hge : cfg.maxRequests ≤ e.value) :
    rateLimiter cfg .ok st key now = ⟨.rejected429, st, [.get key], false⟩ := by
  simp [rateLimiter, hg, hge]

/-- Unfolding: transaction throws, key absent. -/
theorem rateLimiter_failExec_none (cfg : Config) (st : Store) (key : String) (now : Nat)
    (hg : redisGet st key = none) :
    rateLimiter cfg .failExec st key now
      = ⟨.admitted, st, [.get key, .incr key, .expire key (cfg.windowMs / 1000)], true⟩ := by
  simp [rateLimiter, hg]

/-- Unfolding: transaction throws, current count below the cap. -/
theorem rateLimiter_failExec_below (cfg : Config) (st : Store) (key : String) (now : Nat)
    (e : Entry) (hg : redisGet st key = some e) (hlt : e.value < cfg.maxRequests) :
    rateLimiter cfg .failExec st key now
      = ⟨.admitted, st, [.get key, .incr key], true⟩ := by
  simp [rateLimiter, hg, Nat.not_le.mpr hlt]

/-- Unfolding: transaction would throw, but the count is already at the cap,
so the request is rejected before the transaction runs. -/
theorem rateLimiter_failExec_over (cfg : Config) (st : Store) (key : String) (now : Nat)
    (e : Entry) (hg : redisGet st key = some e) (hge : cfg.maxRequests ≤ e.value) :
    rateLimiter cfg .failExec st key now = ⟨.rejected429, st, [.get key], false⟩ := by
  simp [rateLimiter, hg, hge]

/-- On a healthy store, an admitted request for an absent key leaves the key
at count 1 with expiry `now + (windowMs / 1000) * 1000`. -/
theorem admit_fresh_store (cfg : Config) (st : Store) (key : String) (now : Nat)
    (hg : redisGet st key = none) :
    redisGet (rateLimiter cfg .ok st key now).store key
      = some ⟨1, some (now + cfg.windowMs / 1000 * 1000)⟩ := by
  rw [rateLimiter_ok_none cfg st key now hg]
  have h1 : redisIncr st key = redisSet st key ⟨1, none⟩ := by
    simp [redisIncr, hg]
  have h2 : redisGet (redisSet st key ⟨1, none⟩) key = some ⟨1, none⟩ :=
    redisGet_set_self st key ⟨1, none⟩
  have h3 : redisExpire (redisSet st key ⟨1, none⟩) key (cfg.windowMs / 1000) now
      = redisSet (redisSet st key ⟨1, none⟩) key
          ⟨1, some (now + cfg.windowMs / 1000 * 1000)⟩ := by
    simp [redisExpire, h2]
  dsimp only
  rw [h1, h3, redisGet_set_self]

end RL

namespace RL

/-- While at most `maxRequests` sequential requests have been made, every one
of them is admitted and the stored count equals the number of requests. -/
theorem runSeq_below (cfg : Config) (key : String) (now : Nat) :
    ∀ k, k ≤ cfg.maxRequests →
      runSeq cfg key now k = (seqStore cfg key now k, List.replicate k .admitted) := by
  intro k
  induction k with
  | zero => intro _; rfl
  | succ m ih =>
    intro hk
    have hm : m ≤ cfg.maxRequests := Nat.le_of_succ_le hk
    have hstep : runSeq cfg key now (m + 1)
        = ((rateLimiter cfg .ok (runSeq cfg key now m).1 key now).store,
           (runSeq cfg key now m).2
             ++ [(rateLimiter cfg .ok (runSeq cfg key now m).1 key now).decision]) := rfl
    rw [hstep, ih hm]
    cases m with
    | zero =>
      dsimp only
      rw [show seqStore cfg key now 0 = [] from rfl,
          rateLimiter_ok_none cfg [] key now rfl]
      dsimp only
      rw [show seqStore cfg key now 1
          = [(key, ⟨1, some (now + cfg.windowMs / 1000 * 1000)⟩)] from rfl]
      simp [redisIncr, redisGet, redisSet, redisExpire]
    | succ n =>
      have hget : redisGet (seqStore cfg key now (n + 1)) key
          = some ⟨n + 1, some (now + cfg.windowMs / 1000 * 1000)⟩ := by
        rw [show seqStore cfg key now (n + 1)
            = [(key, ⟨n + 1, some (now + cfg.windowMs / 1000 * 1000)⟩)] from rfl]
        simp [redisGet]
      have hlt : n + 1 < cfg.maxRequests := hk
      dsimp only
      rw [rateLimiter_ok_below cfg _ key now _ hget hlt]
      dsimp only
      rw [show seqStore cfg key now (n + 1 + 1)
          = [(key, ⟨n + 1 + 1, some (now + cfg.windowMs / 1000 * 1000)⟩)] from rfl]
      simp only [redisIncr, hget]
      rw [show seqStore cfg key now (n + 1)
          = [(key, ⟨n + 1, some (now + cfg.windowMs / 1000 * 1000)⟩)] from rfl]
      simp [redisSet, List.replicate_succ']

end RL

/-- C2: whenever a Counter Store operation throws during a request (store
unreachable or erroring at the `GET` or at the `MULTI`/`EXEC` transaction),
the rate limiter admits the request — `next()` is called — instead of
returning an error, regardless of the identity's prior count, and the store
is left unchanged: the failure is only logged. -/
theorem rateLimiter_fail_open (cfg : RL.Config) (fm : RL.FailMode) (st : RL.Store)
    (key : String) (now : Nat)
    (h : (RL.rateLimiter cfg fm st key now).threw = true) :
    (RL.rateLimiter cfg fm st key now).decision = RL.Decision.admitted
    ∧ (RL.rateLimiter cfg fm st key now).store = st := by
  cases fm with
  | failGet =>
    rw [RL.rateLimiter_failGet]
    exact ⟨rfl, rfl⟩
  | ok =>
    exfalso
    cases hg : RL.redisGet st key with
    | none =>
      rw [RL.rateLimiter_ok_none cfg st key now hg] at h
      simp at h
    | some e =>
      by_cases hc : cfg.maxRequests ≤ e.value
      · rw [RL.rateLimiter_ok_over cfg st key now e hg hc] at h
        simp at h
      · rw [RL.rateLimiter_ok_below cfg st key now e hg (Nat.not_le.mp hc)] at h
        simp at h
  | failExec =>
    cases hg : RL.redisGet st key with
    | none =>
      rw [RL.rateLimiter_failExec_none cfg st key now hg]
      exact ⟨rfl, rfl⟩
    | some e =>
      by_cases hc : cfg.maxRequests ≤ e.value
      · rw [RL.rateLimiter_failExec_over cfg st key now e hg hc] at h
        simp at h
      · rw [RL.rateLimiter_failExec_below cfg st key now e hg (Nat.not_le.mp hc)]
        exact ⟨rfl, rfl⟩

/-- Witness for C2: with the store unreachable, an identity already at count
10 (the default cap) is still admitted and the store untouched. -/
theorem rateLimiter_fail_open_witness :
    (RL.rateLimiter RL.defaultConfig RL.FailMode.failGet
        [("rate_limit:9.9.9.9", ⟨10, some 60000⟩)] "rate_limit:9.9.9.9" 5).decision
      = RL.Decision.admitted
    ∧ (RL.rateLimiter RL.defaultConfig RL.FailMode.failGet
        [("rate_limit:9.9.9.9", ⟨10, some 60000⟩)] "rate_limit:9.9.9.9" 5).store
      = [("rate_limit:9.9.9.9", ⟨10, some 60000⟩)] :=
  rateLimiter_fail_open RL.defaultConfig RL.FailMode.failGet
    [("rate_limit:9.9.9.9", ⟨10, some 60000⟩)] "rate_limit:9.9.9.9" 5 (by decide)

/-- C9: a request the rate limiter rejects with 429 leaves the Counter Store
exactly as it was and issues no write command (no `INCR`, no `EXPIRE`): the
stored count for the identity is unchanged by a rejected request. -/
theorem rateLimiter_reject_frame (cfg : RL.Config) (fm : RL.FailMode) (st : RL.Store)
    (key : String) (now : Nat)
    (h : (RL.rateLimiter cfg fm st key now).decision = RL.Decision.rejected429) :
    (RL.rateLimiter cfg fm st key now).store = st
    ∧ ∀ op ∈ (RL.rateLimiter cfg fm st key now).ops, op.isWrite = false := by
  cases fm with
  | failGet =>
    rw [RL.rateLimiter_failGet] at h
    simp at h
  | ok =>
    cases hg : RL.redisGet st key with
    | none =>
      rw [RL.rateLimiter_ok_none cfg st key now hg] at h
      simp at h
    | some e =>
      by_cases hc : cfg.maxRequests ≤ e.value
      · rw [RL.rateLimiter_ok_over cfg st key now e hg hc]
        refine ⟨rfl, ?_⟩
        intro op hop
        simp only [List.mem_singleton] at hop
        subst hop
        rfl
      · rw [RL.rateLimiter_ok_below cfg st key now e hg (Nat.not_le.mp hc)] at h
        simp at h
  | failExec =>
    cases hg : RL.redisGet st key with
    | none =>
      rw [RL.rateLimiter_failExec_none cfg st key now hg] at h
      simp at h
    | some e =>
      by_cases hc : cfg.maxRequests ≤ e.value
      · rw [RL.rateLimiter_failExec_over cfg st key now e hg hc]
        refine ⟨rfl, ?_⟩
        intro op hop
        simp only [List.mem_singleton] at hop
        subst hop
        rfl
      · rw [RL.rateLimiter_failExec_below cfg st key now e hg (Nat.not_le.mp hc)] at h
        simp at h

/-- C3: on a healthy store, every admitted request increments the identity's
counter, and an expiry of `WINDOW_MS` (issued as `EXPIRE key WINDOW_MS/1000`)
is attached exactly when the increment creates the counter — when no prior
value existed; when a prior value exists, no expiry is set and the existing
expiry is untouched. -/
theorem rateLimiter_incr_and_expiry (cfg : RL.Config) (st : RL.Store) (key : String)
    (now : Nat) (hdiv : cfg.windowMs % 1000 = 0) :
    (RL.redisGet st key = none →
        (RL.rateLimiter cfg .ok st key now).decision = RL.Decision.admitted
        ∧ RL.redisGet (RL.rateLimiter cfg .ok st key now).store key
            = some ⟨1, some (now + cfg.windowMs)⟩
        ∧ RL.ROp.expire key (cfg.windowMs / 1000)
            ∈ (RL.rateLimiter cfg .ok st key now).ops)
    ∧ (∀ e, RL.redisGet st key = some e →
        (RL.rateLimiter cfg .ok st key now).decision = RL.Decision.admitted →
        RL.redisGet (RL.rateLimiter cfg .ok st key now).store key
            = some ⟨e.value + 1, e.expiryAt⟩
        ∧ ∀ k ttl, RL.ROp.expire k ttl ∉ (RL.rateLimiter cfg .ok st key now).ops) := by
  have hms : cfg.windowMs / 1000 * 1000 = cfg.windowMs :=
    Nat.div_mul_cancel (Nat.dvd_of_mod_eq_zero hdiv)
  constructor
  · intro hg
    refine ⟨?_, ?_, ?_⟩
    · rw [RL.rateLimiter_ok_none cfg st key now hg]
    · rw [RL.admit_fresh_store cfg st key now hg, hms]
    · rw [RL.rateLimiter_ok_none cfg st key now hg]
      simp
  · intro e hg hadm
    by_cases hc : cfg.maxRequests ≤ e.value
    · rw [RL.rateLimiter_ok_over cfg st key now e hg hc] at hadm
      exact absurd hadm (by simp)
    · rw [RL.rateLimiter_ok_below cfg st key now e hg (Nat.not_le.mp hc)]
      constructor
      · show RL.redisGet (RL.redisIncr st key) key = some ⟨e.value + 1, e.expiryAt⟩
        rw [show RL.redisIncr st key
            = RL.redisSet st key ⟨e.value + 1, e.expiryAt⟩ from by simp [RL.redisIncr, hg]]
        exact RL.redisGet_set_self st key ⟨e.value + 1, e.expiryAt⟩
      · intro k ttl
        simp

/-- Witness for C3: a first request for an absent key (default config, empty
store) is admitted, the counter is created at 1 with expiry `WINDOW_MS`, and
the `EXPIRE` command was issued. -/
theorem rateLimiter_incr_and_expiry_witness :
    (RL.rateLimiter RL.defaultConfig .ok [] "rate_limit:unknown" 0).decision
      = RL.Decision.admitted
    ∧ RL.redisGet (RL.rateLimiter RL.defaultConfig .ok [] "rate_limit:unknown" 0).store
        "rate_limit:unknown" = some ⟨1, some (0 + RL.defaultConfig.windowMs)⟩
    ∧ RL.ROp.expire "rate_limit:unknown" (RL.defaultConfig.windowMs / 1000)
        ∈ (RL.rateLimiter RL.defaultConfig .ok [] "rate_limit:unknown" 0).ops :=
  (rateLimiter_incr_and_expiry RL.defaultConfig [] "rate_limit:unknown" 0 (by decide)).1 rfl

/-- C7: for an identity whose counter window has expired (its entry's expiry
time has been reached, and Redis key expiry is modelled as deletion at that
time), the next request is admitted again and the counter restarts: the new
stored count is 1, with a fresh expiry of `WINDOW_MS` from `now`. -/
theorem rateLimiter_window_reset (cfg : RL.Config) (st : RL.Store) (key : String)
    (now v t : Nat) (hnd : (st.map Prod.fst).Nodup)
    (hdiv : cfg.windowMs % 1000 = 0)
    (hg : RL.redisGet st key = some ⟨v, some t⟩) (ht : t ≤ now) :
    RL.redisGet (RL.redisPurge st now) key = none
    ∧ (RL.rateLimiter cfg .ok (RL.redisPurge st now) key now).decision
        = RL.Decision.admitted
    ∧ RL.redisGet (RL.rateLimiter cfg .ok (RL.redisPurge st now) key now).store key
        = some ⟨1, some (now + cfg.windowMs)⟩ := by
  have hms : cfg.windowMs / 1000 * 1000 = cfg.windowMs :=
    Nat.div_mul_cancel (Nat.dvd_of_mod_eq_zero hdiv)
  have hnone := RL.redisPurge_get_none key now v t ht st hnd hg
  refine ⟨hnone, ?_, ?_⟩
  · rw [RL.rateLimiter_ok_none cfg _ key now hnone]
  · rw [RL.admit_fresh_store cfg _ key now hnone, hms]

/-- Witness for C7: an identity rejected at count 10 whose window expired at
time 60000 is admitted again at time 60000 and its counter restarts at 1
with expiry one window later. -/
theorem rateLimiter_window_reset_witness :
    RL.redisGet (RL.redisPurge [("rate_limit:1.2.3.4", ⟨10, some 60000⟩)] 60000)
        "rate_limit:1.2.3.4" = none
    ∧ (RL.rateLimiter RL.defaultConfig .ok
        (RL.redisPurge [("rate_limit:1.2.3.4", ⟨10, some 60000⟩)] 60000)
        "rate_limit:1.2.3.4" 60000).decision = RL.Decision.admitted
    ∧ RL.redisGet (RL.rateLimiter RL.defaultConfig .ok
        (RL.redisPurge [("rate_limit:1.2.3.4", ⟨10, some 60000⟩)] 60000)
        "rate_limit:1.2.3.4" 60000).store "rate_limit:1.2.3.4"
      = some ⟨1, some (60000 + RL.defaultConfig.windowMs)⟩ :=
  rateLimiter_window_reset RL.defaultConfig [("rate_limit:1.2.3.4", ⟨10, some 60000⟩)]
    "rate_limit:1.2.3.4" 60000 10 60000 (by decide) (by decide) (by decide) (by decide)

/-- C1: for every identity, a request whose prior stored count is below
`MAX_REQUESTS` (or whose counter is absent) is admitted, a request arriving
with a stored count at least `MAX_REQUESTS` is rejected with 429, and in a
sequence of requests within one window the first `MAX_REQUESTS` are admitted
while request number `MAX_REQUESTS + 1` is rejected. -/
theorem rateLimiter_window_cap (cfg : RL.Config) (st : RL.Store) (key : String)
    (now : Nat) (hmax : 1 ≤ cfg.maxRequests) :
    (RL.redisGet st key = none →
        (RL.rateLimiter cfg .ok st key now).decision = RL.Decision.admitted)
    ∧ (∀ e, RL.redisGet st key = some e → e.value < cfg.maxRequests →
        (RL.rateLimiter cfg .ok st key now).decision = RL.Decision.admitted)
    ∧ (∀ e, RL.redisGet st key = some e → cfg.maxRequests ≤ e.value →
        (RL.rateLimiter cfg .ok st key now).decision = RL.Decision.rejected429)
    ∧ (RL.runSeq cfg key now (cfg.maxRequests + 1)).2
        = List.replicate cfg.maxRequests RL.Decision.admitted
            ++ [RL.Decision.rejected429] := by
  refine ⟨?_, ?_, ?_, ?_⟩
  · intro hg
    rw [RL.rateLimiter_ok_none cfg st key now hg]
  · intro e hg hlt
    rw [RL.rateLimiter_ok_below cfg st key now e hg hlt]
  · intro e hg hge
    rw [RL.rateLimiter_ok_over cfg st key now e hg hge]
  · have hstep : RL.runSeq cfg key now (cfg.maxRequests + 1)
        = ((RL.rateLimiter cfg .ok (RL.runSeq cfg key now cfg.maxRequests).1 key now).store,
           (RL.runSeq cfg key now cfg.maxRequests).2
             ++ [(RL.rateLimiter cfg .ok
                    (RL.runSeq cfg key now cfg.maxRequests).1 key now).decision]) := rfl
    rw [hstep, RL.runSeq_below cfg key now cfg.maxRequests le_rfl]
    dsimp only
    have hne : cfg.maxRequests ≠ 0 := by omega
    have hst : RL.seqStore cfg key now cfg.maxRequests
        = [(key, ⟨cfg.maxRequests, some (now + cfg.windowMs / 1000 * 1000)⟩)] := by
      simp [RL.seqStore, hne]
    have hget : RL.redisGet (RL.seqStore cfg key now cfg.maxRequests) key
        = some ⟨cfg.maxRequests, some (now + cfg.windowMs / 1000 * 1000)⟩ := by
      rw [hst]
      simp [RL.redisGet]
    rw [RL.rateLimiter_ok_over cfg _ key now _ hget le_rfl]

/-- Witness for C1: with the default cap of 10, eleven back-to-back requests
from one identity yield ten admissions followed by one 429. -/
theorem rateLimiter_window_cap_witness :
    (RL.runSeq RL.defaultConfig "rate_limit:unknown" 0 11).2
      = List.replicate 10 RL.Decision.admitted ++ [RL.Decision.rejected429] :=
  (rateLimiter_window_cap RL.defaultConfig [] "rate_limit:unknown" 0 (by decide)).2.2.2

/-- Witness for C9: an identity at the default cap of 10 is rejected, the
store is unchanged and only the read command was issued. -/
theorem rateLimiter_reject_frame_witness :
    (RL.rateLimiter RL.defaultConfig RL.FailMode.ok
        [("rate_limit:1.2.3.4", ⟨10, some 60000⟩)] "rate_limit:1.2.3.4" 5).store
      = [("rate_limit:1.2.3.4", ⟨10, some 60000⟩)]
    ∧ ∀ op ∈ (RL.rateLimiter RL.defaultConfig RL.FailMode.ok
        [("rate_limit:1.2.3.4", ⟨10, some 60000⟩)] "rate_limit:1.2.3.4" 5).ops,
        op.isWrite = false :=
  rateLimiter_reject_frame RL.defaultConfig RL.FailMode.ok
    [("rate_limit:1.2.3.4", ⟨10, some 60000⟩)] "rate_limit:1.2.3.4" 5 (by decide)

namespace URLS

/-- A record found by `findUnique` carries the searched code. -/
theorem findUnique_code (code : String) :
    ∀ db : Db, ∀ l, findUnique db code = some l → l.short_code = code := by
  intro db
  induction db with
  | nil => intro l h; exact Option.noConfusion h
  | cons x rest ih =>
    intro l h
    rw [show findUnique (x :: rest) code
        = if x.short_code = code then some x else findUnique rest code from rfl] at h
    by_cases hx : x.short_code = code
    · rw [if_pos hx] at h
      injection h with h
      subst h
      exact hx
    · rw [if_neg hx] at h
      exact ih l h

/-- The click-statistics update bumps exactly the record with the given code:
looked up afterwards, it shows one more click and the new click time. -/
theorem findUnique_update (code : String) (now : Nat) :
    ∀ db : Db, ∀ l, findUnique db code = some l →
      findUnique (dbUpdateClick db code now) code
        = some ⟨l.short_code, l.long_url, l.click_count + 1, l.created_at, some now⟩ := by
  intro db
  induction db with
  | nil => intro l h; exact Option.noConfusion h
  | cons x rest ih =>
    intro l h
    rw [show findUnique (x :: rest) code
        = if x.short_code = code then some x else findUnique rest code from rfl] at h
    by_cases hx : x.short_code = code
    · rw [if_pos hx] at h
      injection h with h
      subst h
      simp [dbUpdateClick, hx, findUnique]
    · rw [if_neg hx] at h
      simp [dbUpdateClick, hx, findUnique, ih l h]

/-- An in-range default read from a list is one of its elements. -/
theorem getD_mem : ∀ (l : List Char) (i : Nat) (d : Char), i < l.length → l.getD i d ∈ l := by
  intro l
  induction l with
  | nil =>
    intro i d h
    exact absurd h (by simp)
  | cons c rest ih =>
    intro i d h
    cases i with
    | zero => simp [List.getD]
    | succ j =>
      have hj : j < rest.length := Nat.lt_of_succ_lt_succ h
      have : (c :: rest).getD (j + 1) d = rest.getD j d := rfl
      rw [this]
      exact List.mem_cons_of_mem c (ih j d hj)

/-- The URL-safe alphabet has 64 symbols. -/
theorem urlAlphabet_length : urlAlphabet.length = 64 := rfl

/-- Every symbol of the alphabet is in the class `[A-Za-z0-9_-]`. -/
theorem urlAlphabet_safe : ∀ c ∈ urlAlphabet, isUrlSafeChar c = true := by decide

/-- A generated code has exactly the requested number of characters. -/
theorem nanoid_length (n : Nat) (rng : Nat → Nat) : (nanoid n rng).length = n := by
  show ((List.range n).map (fun i => urlAlphabet.getD (rng i % 64) 'A')).length = n
  rw [List.length_map, List.length_range]

/-- Every character of a generated code is URL-safe. -/
theorem nanoid_chars (n : Nat) (rng : Nat → Nat) :
    ∀ c ∈ (nanoid n rng).toList, isUrlSafeChar c = true := by
  intro c hc
  have hc2 : c ∈ (List.range n).map (fun i => urlAlphabet.getD (rng i % 64) 'A') := hc
  rw [List.mem_map] at hc2
  obtain ⟨i, _, hi⟩ := hc2
  subst hi
  have hlt : rng i % 64 < urlAlphabet.length := by
    rw [urlAlphabet_length]
    exact Nat.mod_lt _ (by norm_num)
  exact urlAlphabet_safe _ (getD_mem urlAlphabet (rng i % 64) 'A' hlt)

/-- A non-empty optional string field is truthy. -/
theorem truthy_some (s : String) (h : s ≠ "") : truthy (some s) = true := by
  have hemp : s.isEmpty = false := by
    cases he : s.isEmpty
    · rfl
    · exact absurd ((String.isEmpty_iff s).mp he) h
  simp [truthy, hemp]

end URLS

/-- C5: resolving an unknown code yields 404 with the store untouched and no
mutation issued; resolving a known code yields a 302 redirect to the stored
`long_url` and triggers exactly one click-count increment together with a
`last_clicked_at` update, which (when it succeeds) is applied to the store. -/
theorem redirect_resolve_spec (db : URLS.Db) (code : String) (now : Nat) (fl : Bool) :
    (URLS.findUnique db code = none →
        URLS.redirectUrl db code now fl
          = ⟨URLS.RedirectResult.notFound404, db, [URLS.DbOp.query code]⟩
        ∧ ∀ op ∈ (URLS.redirectUrl db code now fl).ops, op.isMutation = false)
    ∧ (∀ url, URLS.findUnique db code = some url →
        (URLS.redirectUrl db code now fl).result
            = URLS.RedirectResult.redirect302 url.long_url
        ∧ (URLS.redirectUrl db code now fl).ops.count (URLS.DbOp.update code) = 1
        ∧ (fl = false →
            URLS.findUnique (URLS.redirectUrl db code now fl).db code
              = some ⟨url.short_code, url.long_url, url.click_count + 1,
                  url.created_at, some now⟩)) := by
  constructor
  · intro hg
    constructor
    · simp [URLS.redirectUrl, hg]
    · intro op hop
      simp [URLS.redirectUrl, hg] at hop
      subst hop
      rfl
  · intro url hg
    refine ⟨?_, ?_, ?_⟩
    · simp [URLS.redirectUrl, hg]
    · simp [URLS.redirectUrl, hg, List.count_cons]
    · intro hfl
      subst hfl
      simp only [URLS.redirectUrl, hg, if_neg Bool.false_ne_true]
      exact URLS.findUnique_update code now db url hg

/-- Witness for C5: resolving a stored code redirects to its long URL, issues
exactly one update, and the record shows one more click afterwards. -/
theorem redirect_resolve_spec_witness :
    (URLS.redirectUrl [⟨"abc123", "https://example.com", 3, 7, none⟩]
        "abc123" 42 false).result
      = URLS.RedirectResult.redirect302 "https://example.com"
    ∧ (URLS.redirectUrl [⟨"abc123", "https://example.com", 3, 7, none⟩]
        "abc123" 42 false).ops.count (URLS.DbOp.update "abc123") = 1
    ∧ ((false : Bool) = false →
        URLS.findUnique (URLS.redirectUrl [⟨"abc123", "https://example.com", 3, 7, none⟩]
          "abc123" 42 false).db "abc123"
        = some ⟨"abc123", "https://example.com", 3 + 1, 7, some 42⟩) :=
  (redirect_resolve_spec [⟨"abc123", "https://example.com", 3, 7, none⟩]
      "abc123" 42 false).2 ⟨"abc123", "https://example.com", 3, 7, none⟩ (by decide)

/-- C8: the redirect outcome of resolving a code is identical whether the
fire-and-forget click-statistics update fails or succeeds — its failure is
swallowed and never surfaces in the response, and the same database
operations are issued either way. -/
theorem redirect_update_failure_irrelevant (db : URLS.Db) (code : String) (now : Nat) :
    (URLS.redirectUrl db code now true).result
      = (URLS.redirectUrl db code now false).result
    ∧ (URLS.redirectUrl db code now true).ops
      = (URLS.redirectUrl db code now false).ops := by
  cases hg : URLS.findUnique db code <;> simp [URLS.redirectUrl, hg]

/-- Counterexample to C4 as stated: `custom_code = ""` is a supplied custom
code, the store is empty so no ShortLink with code `""` exists, yet the
allocation does not use the supplied code — a random 6-character code is
generated instead (truthiness, not presence, guards the custom branch), so
the created record's `short_code` differs from the supplied custom code. -/
theorem shorten_custom_empty_counterexample :
    (URLS.shortenUrl "http://sho.rt" (fun _ => 0) 7 []
        (some "https://example.com") (some "")).result
      = URLS.ShortenResult.created201 "http://sho.rt/AAAAAA"
    ∧ (URLS.shortenUrl "http://sho.rt" (fun _ => 0) 7 []
        (some "https://example.com") (some "")).db
      = [⟨"AAAAAA", "https://example.com", 0, 7, none⟩]
    ∧ ("AAAAAA" : String) ≠ "" := by
  refine ⟨by decide, by decide, by decide⟩

/-- C4 (amended to non-empty custom codes): for every non-empty `custom_code`
supplied to allocate, if a ShortLink with that code exists the result is
Conflict (409) and the URL Store is unchanged; if none exists the allocation
succeeds and the created record's `short_code` equals the supplied code. -/
theorem shorten_custom_code_spec (base : String) (rng : Nat → Nat) (now : Nat)
    (db : URLS.Db) (lu cc : String) (hlu : lu ≠ "") (hcc : cc ≠ "") :
    ((URLS.findUnique db cc).isSome →
        URLS.shortenUrl base rng now db (some lu) (some cc)
          = ⟨URLS.ShortenResult.conflict409, db, [URLS.DbOp.query cc]⟩)
    ∧ (URLS.findUnique db cc = none →
        (URLS.shortenUrl base rng now db (some lu) (some cc)).result
            = URLS.ShortenResult.created201 (base ++ "/" ++ cc)
        ∧ (URLS.shortenUrl base rng now db (some lu) (some cc)).db
            = db ++ [⟨cc, lu, 0, now, none⟩]) := by
  have htl := URLS.truthy_some lu hlu
  have htc := URLS.truthy_some cc hcc
  constructor
  · intro hs
    obtain ⟨l, hl⟩ := Option.isSome_iff_exists.mp hs
    simp [URLS.shortenUrl, htl, htc, hl]
  · intro hg
    constructor <;> simp [URLS.shortenUrl, htl, htc, hg, URLS.dbCreate]

/-- Witness for C4 (amended): `custom_code = "docs"` against a store already
holding `"docs"` yields 409 and leaves the store unchanged. -/
theorem shorten_custom_code_spec_witness :
    URLS.shortenUrl "http://sho.rt" (fun _ => 0) 9
        [⟨"docs", "https://old.example", 0, 0, none⟩]
        (some "https://example.com") (some "docs")
      = ⟨URLS.ShortenResult.conflict409,
          [⟨"docs", "https://old.example", 0, 0, none⟩], [URLS.DbOp.query "docs"]⟩ :=
  (shorten_custom_code_spec "http://sho.rt" (fun _ => 0) 9
      [⟨"docs", "https://old.example", 0, 0, none⟩]
      "https://example.com" "docs" (by decide) (by decide)).1 (by decide)

/-- Counterexample to C6 as stated: with no custom code, when the randomly
generated code already exists in the URL Store the `create` fails on the
uniqueness violation and the handler answers 500, not 201 — the claim's
unconditional 201 does not hold on collision. -/
theorem shorten_random_collision_counterexample :
    (URLS.shortenUrl "http://sho.rt" (fun _ => 0) 7
        [⟨"AAAAAA", "https://prior.example", 0, 0, none⟩]
        (some "https://example.com") none).result
      = URLS.ShortenResult.serverError500 := by decide

/-- C6 (amended with the no-collision proviso): for every allocate call with
a non-empty `long_url` and no `custom_code`, a random code of exactly 6
URL-safe characters (`[A-Za-z0-9_-]`) is generated; provided the generated
code does not already exist in the store, a new ShortLink with
`click_count = 0` and `last_clicked_at = null` is persisted and 201 is
returned with `short_url = BASE_URL ++ "/" ++ code`; no uniqueness re-check
of the generated code is performed (the only operation issued is the
`create`, and on a collision that create fails, yielding 500). -/
theorem shorten_random_code_spec (base : String) (rng : Nat → Nat) (now : Nat)
    (db : URLS.Db) (lu : String) (hlu : lu ≠ "")
    (hfresh : URLS.findUnique db (URLS.nanoid 6 rng) = none) :
    (URLS.shortenUrl base rng now db (some lu) none).result
        = URLS.ShortenResult.created201 (base ++ "/" ++ URLS.nanoid 6 rng)
    ∧ (URLS.shortenUrl base rng now db (some lu) none).db
        = db ++ [⟨URLS.nanoid 6 rng, lu, 0, now, none⟩]
    ∧ (URLS.nanoid 6 rng).length = 6
    ∧ (∀ c ∈ (URLS.nanoid 6 rng).toList, URLS.isUrlSafeChar c = true)
    ∧ (URLS.shortenUrl base rng now db (some lu) none).ops
        = [URLS.DbOp.create (URLS.nanoid 6 rng) lu] := by
  have htl := URLS.truthy_some lu hlu
  have htn : URLS.truthy none = false := rfl
  refine ⟨?_, ?_, URLS.nanoid_length 6 rng, URLS.nanoid_chars 6 rng, ?_⟩ <;>
    simp [URLS.shortenUrl, htl, htn, URLS.dbCreate, hfresh]

/-- Witness for C6 (amended): with fresh randomness against an empty store,
allocation returns 201 with the generated code appended to the base URL. -/
theorem shorten_random_code_spec_witness :
    (URLS.shortenUrl "http://sho.rt" (fun i => i) 9 []
        (some "https://example.com") none).result
      = URLS.ShortenResult.created201
          ("http://sho.rt" ++ "/" ++ URLS.nanoid 6 (fun i => i)) :=
  (shorten_random_code_spec "http://sho.rt" (fun i => i) 9 [] "https://example.com"
      (by decide) (by decide)).1

/-- C10: an empty-string `custom_code` is treated exactly as an absent one —
the call is literally equal to the call without a custom code, no uniqueness
lookup is issued, no Conflict is possible, and the operation issued is the
`create` of the random 6-character `nanoid` code. -/
theorem shorten_empty_custom_as_absent (base : String) (rng : Nat → Nat) (now : Nat)
    (db : URLS.Db) (lu : String) (hlu : lu ≠ "") :
    URLS.shortenUrl base rng now db (some lu) (some "")
      = URLS.shortenUrl base rng now db (some lu) none
    ∧ (URLS.shortenUrl base rng now db (some lu) (some "")).result
        ≠ URLS.ShortenResult.conflict409
    ∧ (∀ c, URLS.DbOp.query c ∉ (URLS.shortenUrl base rng now db (some lu) (some "")).ops)
    ∧ (URLS.shortenUrl base rng now db (some lu) (some "")).ops
        = [URLS.DbOp.create (URLS.nanoid 6 rng) lu]
    ∧ (URLS.nanoid 6 rng).length = 6 := by
  have htl := URLS.truthy_some lu hlu
  have hte : URLS.truthy (some "") = false := rfl
  cases hg : URLS.findUnique db (URLS.nanoid 6 rng) with
  | none =>
    refine ⟨rfl, ?_, ?_, ?_, URLS.nanoid_length 6 rng⟩ <;>
      simp [URLS.shortenUrl, htl, hte, URLS.dbCreate, hg]
  | some l =>
    refine ⟨rfl, ?_, ?_, ?_, URLS.nanoid_length 6 rng⟩ <;>
      simp [URLS.shortenUrl, htl, hte, URLS.dbCreate, hg]

/-- Witness for C10: with `custom_code = ""` the only issued operation is the
creation of the randomly generated code. -/
theorem shorten_empty_custom_as_absent_witness :
    (URLS.shortenUrl "http://sho.rt" (fun _ => 1) 3 []
        (some "https://example.com") (some "")).ops
      = [URLS.DbOp.create (URLS.nanoid 6 (fun _ => 1)) "https://example.com"] :=
  (shorten_empty_custom_as_absent "http://sho.rt" (fun _ => 1) 3 []
      "https://example.com" (by decide)).2.2.2.1
